import Mathlib

/-!
Verification of the extraction pipeline of the vcanalyst-agent repository.

Python strings are modelled as lists of characters (`Str`); each embedded
definition mirrors one Python function of the repository (`src/models/schemas.py`,
`src/utils/nlp.py`, `src/utils/web_scraper.py`, `src/agents/market_mapper.py`,
`src/agents/pitchdeck_parser.py`, `src/agents/memo_generator.py`).
Python regular expressions are embedded through a small backtracking
regex interpreter whose alternation and repetition orderings follow the
leftmost/greedy priority of the `re` module; character classes are modelled
over the ASCII range the repository's patterns and inputs use.
-/

/-- A Python `str`, modelled as its list of characters. -/
abbrev Str := List Char

/-- The characters of a Lean string literal, for writing `Str` constants. -/
def str (s : String) : Str := s.data

/-- Python `str.isspace` for a single character (the six ASCII whitespace
characters recognised by `str.strip` / `str.split`). -/
def pyIsSpace (c : Char) : Bool :=
  c = ' ' || c = '\t' || c = '\n' || c = '\x0d' || c = '\x0b' || c = '\x0c'

/-- Python `str.strip()`: drop leading whitespace, then trailing whitespace. -/
def pyStrip (s : Str) : Str :=
  ((s.dropWhile pyIsSpace).reverse.dropWhile pyIsSpace).reverse

/-- Python `str.lower()` (ASCII case folding). -/
def pyLower (s : Str) : Str := s.map Char.toLower

/-- Python `sub in s` substring containment test: `sub` is a prefix of some
suffix of `s`. -/
def pyIn (sub : Str) : Str → Bool
  | [] => sub.isEmpty
  | c :: rest => List.isPrefixOf sub (c :: rest) || pyIn sub rest

/-- Python `str.split()` with no argument: split on whitespace runs,
discarding empty tokens. -/
def pySplitWs (s : Str) : List Str :=
  (s.splitOnP pyIsSpace).filter (fun t => t ≠ [])

/-- Python `s[a:b]` for non-negative bounds. -/
def pySlice (s : Str) (a b : Nat) : Str := (s.take b).drop a

/-- Python `s.find(c, i)`: index of the first occurrence of `c` at or after
`i`, or `-1`. -/
def pyFindFrom (s : Str) (c : Char) (i : Nat) : Int :=
  match (s.drop i).findIdx? (fun x => x = c) with
  | some j => (i + j : Nat)
  | none => -1

/-- Python `s.rfind(c, 0, e)`: highest index below `e` (and in range) holding
`c`, or `-1`. -/
def pyRFindBefore (s : Str) (c : Char) (e : Nat) : Int :=
  match ((s.take e).reverse).findIdx? (fun x => x = c) with
  | some j => ((s.take e).length - 1 - j : Nat)
  | none => -1

/-- Python `'\n\n'` splitting, `text.split('\n\n')`: split at each leftmost
non-overlapping occurrence of two consecutive newlines. -/
def splitNN : Str → List Str
  | [] => [[]]
  | c :: rest =>
    if c = '\n' ∧ rest.head? = some '\n' then
      [] :: splitNN rest.tail
    else
      match splitNN rest with
      | [] => [[c]]
      | p :: ps => (c :: p) :: ps
termination_by s => s.length
decreasing_by
  · simp only [List.length_cons, List.length_tail]
    omega
  · simp

/-- Whether a string contains two consecutive newline characters. -/
def hasNN : Str → Bool
  | [] => false
  | c :: rest => (c = '\n' && rest.head? = some '\n') || hasNN rest

/- ## Data model (src/models/schemas.py) -/

/-- `Citation` (schemas.py): provenance record.  The pydantic `HttpUrl` and
`datetime` fields are modelled as a string and an abstract tick count. -/
structure Citation where
  url : Str
  snippet : Str
  source_type : Str
  timestamp : Nat
deriving DecidableEq, Repr

/-- `Section` (schemas.py): a memo section.  `metrics : Dict[str, str]` is
modelled as an association list. -/
structure Section where
  text : Option Str := none
  bullets : List Str := []
  metrics : List (Str × Str) := []
  citations : List Citation := []
deriving DecidableEq, Repr

/-- Python truthiness of the `text` field (`None` and `""` are falsy). -/
def textTruthy (t : Option Str) : Bool :=
  match t with
  | none => false
  | some s => s ≠ []

/-- `Section.has_content` (schemas.py line 17-19):
`bool(self.text or self.bullets or self.metrics)`. -/
def Section.has_content (s : Section) : Bool :=
  textTruthy s.text || s.bullets ≠ [] || s.metrics ≠ []

/-- `StructuredCompanyDoc` (schemas.py): company name plus the fixed set of
fifteen sections. -/
structure StructuredCompanyDoc where
  name : Str
  intro : Section := {}
  problem : Section := {}
  solution : Section := {}
  product : Section := {}
  business_model : Section := {}
  market : Section := {}
  traction : Section := {}
  growth_strategy : Section := {}
  team : Section := {}
  competitors : Section := {}
  financials : Section := {}
  risks : Section := {}
  timing : Section := {}
  moat : Section := {}
  recommendations : Section := {}
deriving DecidableEq, Repr

/-- Iteration over `self.dict().items()` restricted to Section-valued fields
(the `isinstance(section, dict)` check excludes the string field `name`;
the excluded names `website`/`contact`/`missing_fields` are not fields of the
model).  Pydantic iterates fields in declaration order. -/
def sectionItems (d : StructuredCompanyDoc) : List (Str × Section) :=
  [ (str "intro", d.intro), (str "problem", d.problem),
    (str "solution", d.solution), (str "product", d.product),
    (str "business_model", d.business_model), (str "market", d.market),
    (str "traction", d.traction), (str "growth_strategy", d.growth_strategy),
    (str "team", d.team), (str "competitors", d.competitors),
    (str "financials", d.financials), (str "risks", d.risks),
    (str "timing", d.timing), (str "moat", d.moat),
    (str "recommendations", d.recommendations) ]

/-- `StructuredCompanyDoc.get_populated_sections` (schemas.py lines 40-48). -/
def get_populated_sections (d : StructuredCompanyDoc) : List (Str × Section) :=
  (sectionItems d).filter (fun it => it.2.has_content)

/-- `StructuredCompanyDoc.get_missing_fields` (schemas.py lines 50-58). -/
def get_missing_fields (d : StructuredCompanyDoc) : List Str :=
  ((sectionItems d).filter (fun it => !it.2.has_content)).map Prod.fst

/-- The full fixed set of fifteen section names. -/
def allSectionNames : List Str :=
  [ str "intro", str "problem", str "solution", str "product",
    str "business_model", str "market", str "traction", str "growth_strategy",
    str "team", str "competitors", str "financials", str "risks",
    str "timing", str "moat", str "recommendations" ]

/- ## Regular expression interpreter

A small backtracking matcher for the regex fragment the repository uses.
Result lists are ordered by the `re` module's priority: alternatives
left-to-right, repetitions greedy (more repetitions first).  Matching is
anchored at a position in the subject string; `reFinditer` scans positions
left to right and resumes after each match, as `re.finditer` does. -/

/-- Regex abstract syntax: the fragment used by the repository's patterns. -/
inductive RE where
  /-- empty pattern -/
  | epsR : RE
  /-- single-character class -/
  | cls : (Char → Bool) → RE
  /-- concatenation -/
  | cat : RE → RE → RE
  /-- alternation, left alternative preferred -/
  | alt : RE → RE → RE
  /-- greedy Kleene star -/
  | star : RE → RE
  /-- greedy bounded repetition of zero up to `n` copies -/
  | repUpTo : Nat → RE → RE
  /-- capturing group with its index -/
  | grp : Nat → RE → RE
  /-- word boundary anchor -/
  | wordB : RE

/-- Word character for the boundary anchor, over the ASCII range Python's
default word class covers there. -/
def isWordChar (c : Char) : Bool := c.isAlphanum || c = '_'

/-- Is position `i` of `full` a word boundary. -/
def atBoundary (full : Str) (i : Nat) : Bool :=
  let before := match i with
    | 0 => false
    | j + 1 => match full[j]? with
      | some c => isWordChar c
      | none => false
  let after := match full[i]? with
    | some c => isWordChar c
    | none => false
  before != after

/-- Recorded capture-group spans: `(index, start, end)` triples, later
repetitions recorded later (Python keeps the last). -/
abbrev Caps := List (Nat × Nat × Nat)

/-- All ways to match `re` in `full` anchored at position `i`, in priority
order; each result is the end position with its captures.  `fuel` bounds the
recursion depth and is chosen large enough by the callers below. -/
def reMs (full : Str) : Nat → RE → Nat → List (Nat × Caps)
  | 0, _, _ => []
  | fuel + 1, re, i =>
    match re with
    | .epsR => [(i, [])]
    | .cls p =>
      match full[i]? with
      | some c => if p c then [(i + 1, [])] else []
      | none => []
    | .cat a b =>
      (reMs full fuel a i).flatMap fun r =>
        (reMs full fuel b r.1).map fun q => (q.1, r.2 ++ q.2)
    | .alt a b => reMs full fuel a i ++ reMs full fuel b i
    | .star a =>
      ((reMs full fuel a i).flatMap fun r =>
        if i < r.1 then
          (reMs full fuel (.star a) r.1).map fun q => (q.1, r.2 ++ q.2)
        else []) ++ [(i, [])]
    | .repUpTo n a =>
      match n with
      | 0 => [(i, [])]
      | m + 1 =>
        ((reMs full fuel a i).flatMap fun r =>
          if i < r.1 then
            (reMs full fuel (.repUpTo m a) r.1).map fun q => (q.1, r.2 ++ q.2)
          else []) ++ [(i, [])]
    | .grp idx a => (reMs full fuel a i).map fun r => (r.1, r.2 ++ [(idx, i, r.1)])
    | .wordB => if atBoundary full i then [(i, [])] else []

/-- Size of a regex term, used to compute a sufficient fuel. -/
def reSize : RE → Nat
  | .epsR => 1
  | .cls _ => 1
  | .cat a b => reSize a + reSize b + 1
  | .alt a b => reSize a + reSize b + 1
  | .star a => reSize a + 1
  | .repUpTo n a => reSize a + n + 1
  | .grp _ a => reSize a + 1
  | .wordB => 1

/-- Fuel that the recursion of `reMs` cannot exhaust on `full`. -/
def reFuel (full : Str) (re : RE) : Nat :=
  (full.length + 2) * (reSize re + 2)

/-- The match of `re` anchored at position `i` (Python's leftmost-priority
match): the first result in priority order. -/
def reMatchAt (full : Str) (re : RE) (i : Nat) : Option (Nat × Caps) :=
  (reMs full (reFuel full re) re i).head?

/-- `re.search`: does the pattern match anywhere in `full`. -/
def reSearch (re : RE) (full : Str) : Bool :=
  (List.range (full.length + 1)).any fun i => (reMatchAt full re i).isSome

/-- One `re.finditer` step sequence: scan from `pos`, emitting
`(start, end, captures)` per match and resuming at the match end
(one past it for a zero-width match). -/
def reFinditerAux (full : Str) (re : RE) : Nat → Nat → List (Nat × Nat × Caps)
  | 0, _ => []
  | fuel + 1, pos =>
    if pos > full.length then []
    else
      match reMatchAt full re pos with
      | some (e, caps) =>
        (pos, e, caps) :: reFinditerAux full re fuel (if pos < e then e else pos + 1)
      | none => reFinditerAux full re fuel (pos + 1)

/-- `re.finditer(re, full)`: all non-overlapping matches, left to right. -/
def reFinditer (re : RE) (full : Str) : List (Nat × Nat × Caps) :=
  reFinditerAux full re (full.length + 2) 0

/-- Number of capturing groups of a pattern (`len(match.groups())`). -/
def numGroups : RE → Nat
  | .epsR => 0
  | .cls _ => 0
  | .cat a b => numGroups a + numGroups b
  | .alt a b => numGroups a + numGroups b
  | .star a => numGroups a
  | .repUpTo _ a => numGroups a
  | .grp _ a => numGroups a + 1
  | .wordB => 0

/-- `match.group(k)` as a span: the last recorded span of group `k`. -/
def capSpan (caps : Caps) (k : Nat) : Option (Nat × Nat) :=
  (caps.reverse.find? fun t => t.1 = k).map fun t => t.2

/-- `match.group(k)` as a string (empty when the group did not participate,
which does not occur in the extractions verified here). -/
def capStr (full : Str) (caps : Caps) (k : Nat) : Str :=
  match capSpan caps k with
  | some (a, b) => pySlice full a b
  | none => []

/- ### Pattern building blocks -/

/-- A literal character, case-sensitive. -/
def chC (c : Char) : RE := .cls fun x => x = c

/-- A literal character under `re.IGNORECASE` (ASCII case folding). -/
def chI (c : Char) : RE := .cls fun x => x.toLower = c.toLower

/-- Concatenation of a list of patterns. -/
def seqR (l : List RE) : RE := l.foldr RE.cat .epsR

/-- A case-sensitive literal string. -/
def litC (s : String) : RE := seqR (s.data.map chC)

/-- A literal string under `re.IGNORECASE`. -/
def litI (s : String) : RE := seqR (s.data.map chI)

/-- Alternation over a list, leftmost preferred (the empty tail never
matches). -/
def altL (l : List RE) : RE := l.foldr RE.alt (.cls fun _ => false)

/-- `\d`. -/
def dD : RE := .cls Char.isDigit

/-- `\s` (same ASCII whitespace set as `str.strip`). -/
def dS : RE := .cls pyIsSpace

/-- `[A-Z]`, case-sensitive. -/
def clsAZ : RE := .cls fun c => 'A' ≤ c && c ≤ 'Z'

/-- `[a-z]`, case-sensitive. -/
def clsaz : RE := .cls fun c => 'a' ≤ c && c ≤ 'z'

/-- `[A-Z]` or `[a-z]` under `re.IGNORECASE`: any ASCII letter. -/
def clsAlphaI : RE := .cls Char.isAlpha

/-- `e?` (greedy). -/
def optR (a : RE) : RE := .alt a .epsR

/-- `e+` (greedy). -/
def plusR (a : RE) : RE := .cat a (.star a)

/- ## MarketMapper (src/agents/market_mapper.py) -/

/-- `RawDoc` (schemas.py): scraped web content. -/
structure RawDoc where
  url : Str
  title : Str
  text : Str
  source_type : Str
  timestamp : Nat
deriving DecidableEq, Repr

/-- A Google search result dict `{url, snippet, text, ...}` as consumed by
`market_mapper.py`. -/
structure GoogleResult where
  url : Str
  snippet : Str
  text : Str
deriving DecidableEq, Repr

/-- The dollar-amount sub-pattern `\$?\d+(?:\.\d+)?\s?(unit|...)` shared by the
market-size patterns, with its outer and inner group indices. -/
def moneyGrp (outer inner : Nat) (units : List String) : RE :=
  .grp outer (seqR [optR (chC '$'), plusR dD, optR (seqR [chC '.', plusR dD]),
    optR dS, .grp inner (altL (units.map litI))])

/-- `market_size_patterns` (market_mapper.py lines 13-19), compiled with
`re.IGNORECASE`. -/
def market_size_patterns : List RE :=
  [ seqR [.grp 1 (.alt (litI "TAM") (litI "Total Addressable Market")),
      .repUpTo 10 (.cls fun c => !c.isDigit),
      moneyGrp 2 3 ["million", "billion", "trillion"]],
    seqR [.grp 1 (.alt (litI "market size") (litI "industry size")),
      .repUpTo 20 (.cls fun c => !c.isDigit),
      moneyGrp 2 3 ["million", "billion"]],
    seqR [moneyGrp 1 2 ["million", "billion", "trillion"], .star dS,
      .grp 3 (altL [litI "TAM", litI "market", litI "industry"])],
    seqR [.grp 1 (altL [litI "estimated", litI "valued at", litI "worth"]),
      .star dS, moneyGrp 2 3 ["million", "billion", "trillion"], .star dS,
      .grp 4 (altL [litI "market", litI "industry"])],
    seqR [moneyGrp 1 2 ["million", "billion", "trillion"], .star dS,
      .grp 3 (.alt (litI "dollar") (litI "USD")), .star dS,
      .grp 4 (altL [litI "market", litI "industry"])] ]

/-- The mojibake dash class `[-â€“]` appearing in `market_mapper.py` line 26
and `nlp.py` line 65 (UTF-8 bytes of an en-dash decoded as cp1252). -/
def dashMojibake : RE := .cls fun c => c = '-' || c = 'â' || c = '€' || c = '“'

/-- A capitalised multi-word phrase `[A-Z][a-z]+(?:\s+[A-Z][a-z]+)*` under
`re.IGNORECASE` (any ASCII letters). -/
def capPhraseI : RE :=
  seqR [clsAlphaI, plusR clsAlphaI, .star (seqR [plusR dS, clsAlphaI, plusR clsAlphaI])]

/-- `competition_patterns` (market_mapper.py lines 22-27), compiled with
`re.IGNORECASE`. -/
def competition_patterns : List RE :=
  [ seqR [.grp 1 (altL [seqR [litI "competitor", optR (chI 's')],
        seqR [litI "alternative", optR (chI 's')], litI "competition"]),
      .star dS, .grp 2 (altL [litI "include", litI "are", litI "like", litI "such as"]),
      .star dS, .grp 3 (plusR (.cls fun c => c ≠ '.'))],
    seqR [.grp 1 (.alt (litI "compete") (litI "competing")), .star dS,
      .grp 2 (.alt (litI "with") (litI "against")), .star dS,
      .grp 3 (plusR (.cls fun c => c ≠ '.'))],
    seqR [.grp 1 (altL [litI "similar to", litI "like", litI "including"]),
      .star dS, .grp 2 (plusR (.cls fun c => c ≠ '.'))],
    seqR [.grp 1 capPhraseI, .star dS, dashMojibake, .star dS,
      .grp 2 (plusR (.cls fun c => c ≠ '.'))] ]

/-- The case-sensitive company-name pattern
`\b([A-Z][a-z]+(?:\s+[A-Z][a-z]+)*)\b` used inside `extract_competitors`
(market_mapper.py lines 92 and 109), compiled without flags. -/
def companyNameRE : RE :=
  seqR [.wordB,
    .grp 1 (seqR [clsAZ, plusR clsaz, .star (seqR [plusR dS, clsAZ, plusR clsaz])]),
    .wordB]

/-- The sentence around a match span, as computed in
`extract_market_size` (market_mapper.py lines 61-67): from one past the last
`.` before the match start to the first `.` after the match end. -/
def sentenceFromMatch (text : Str) (s e : Nat) : Str :=
  let sentence_start : Int := pyRFindBefore text '.' s + 1
  let fe : Int := pyFindFrom text '.' e
  let sentence_end : Int := if fe = -1 then (text.length : Int) else fe
  pyStrip (pySlice text sentence_start.toNat sentence_end.toNat)

/-- The `market_sizes` list accumulated by `extract_market_size`
(market_mapper.py lines 55-69): for each pattern in order, for each match,
when the pattern has at least two groups, the stripped containing sentence,
kept when longer than 20 characters. -/
def marketSentences (text : Str) : List Str :=
  market_size_patterns.flatMap fun pattern =>
    (reFinditer pattern text).filterMap fun m =>
      if numGroups pattern ≥ 2 then
        let sentence := sentenceFromMatch text m.1 m.2.1
        if sentence.length > 20 then some sentence else none
      else none

/-- `MarketMapper.extract_market_size` (market_mapper.py lines 53-77).
Returns `none` (Python `None`) when no sentence was collected. -/
def extract_market_size (text : Str) (citations : List Citation) : Option Section :=
  let market_sizes := marketSentences text
  if market_sizes ≠ [] then
    some { text := some (List.intercalate (str ". ") (market_sizes.take 2)),
           citations := citations }
  else none

/-- Recursion worker for `reSplitPunct`; the fuel is at least the string
length plus one, so the `0` case is never reached. -/
def reSplitPunctAux : Nat → Str → List Str
  | 0, s => [s]
  | fuel + 1, s =>
    match s with
    | [] => [[]]
    | c :: rest =>
      if c = '.' || c = '!' || c = '?' then
        [] :: reSplitPunctAux fuel (rest.dropWhile fun x => x = '.' || x = '!' || x = '?')
      else
        match reSplitPunctAux fuel rest with
        | [] => [[c]]
        | p :: ps => (c :: p) :: ps

/-- Python `re.split(r'[.!?]+', text)`: split on maximal runs of sentence
punctuation. -/
def reSplitPunct (s : Str) : List Str := reSplitPunctAux (s.length + 1) s

/-- The deduplicating append of `extract_competitors`
(`if context not in competitors: competitors.append(context)`). -/
def appendIfNew (acc : List Str) (context : Str) : List Str :=
  if context ∈ acc then acc else acc ++ [context]

/-- First pass of `MarketMapper.extract_competitors` (market_mapper.py lines
83-102): context windows around capitalised multi-word names inside each
competition-pattern match, deduplicated in first-occurrence order. -/
def competitorContexts (text : Str) : List Str :=
  competition_patterns.foldl (fun acc pattern =>
    (reFinditer pattern text).foldl (fun acc m =>
      if numGroups pattern ≥ 2 then
        let competitor_text := pySlice text m.1 m.2.1
        (reFinditer companyNameRE competitor_text).foldl (fun acc cm =>
          let company_name := capStr competitor_text cm.2.2 1
          if (pySplitWs company_name).length ≥ 2 then
            let context := pyStrip (pySlice competitor_text (cm.1 - 50)
              (min competitor_text.length (cm.2.1 + 50)))
            appendIfNew acc context
          else acc) acc
      else acc) acc) []

/-- Second pass of `MarketMapper.extract_competitors` (market_mapper.py lines
104-113): whole stripped sentences containing a competition keyword, appended
once per capitalised multi-word name found (no deduplication). -/
def competitorSentenceBullets (text : Str) : List Str :=
  (reSplitPunct text).flatMap fun sentence =>
    if ([str "competitor", str "alternative", str "similar", str "compete"]).any
        (fun word => pyIn word (pyLower sentence)) then
      (reFinditer companyNameRE sentence).filterMap fun cm =>
        let company_name := capStr sentence cm.2.2 1
        if (pySplitWs company_name).length ≥ 2 then some (pyStrip sentence) else none
    else []

/-- `MarketMapper.extract_competitors` (market_mapper.py lines 79-121).
Returns `none` (Python `None`) when no competitor context was collected. -/
def extract_competitors (text : Str) (citations : List Citation) : Option Section :=
  let competitors := competitorContexts text ++ competitorSentenceBullets text
  if competitors ≠ [] then
    some { bullets := competitors.take 5, citations := citations }
  else none

/-- `MarketMapper.create_citation` (market_mapper.py lines 35-42). -/
def create_citation (raw_doc : RawDoc) (snippet : Str) : Citation :=
  { url := raw_doc.url,
    snippet := if snippet.length > 200 then snippet.take 200 ++ str "..." else snippet,
    source_type := raw_doc.source_type,
    timestamp := raw_doc.timestamp }

/-- `MarketMapper.create_google_citation` (market_mapper.py lines 44-51);
`datetime.now()` is modelled as an abstract tick `0`. -/
def create_google_citation (result : GoogleResult) : Citation :=
  { url := result.url,
    snippet := if result.snippet.length > 200 then result.snippet.take 200 ++ str "..."
               else result.snippet,
    source_type := str "google_search",
    timestamp := 0 }

/-- The combined text assembled by `MarketMapper.map_market` (market_mapper.py
lines 127-139): space-joined document texts and Google texts, stripped. -/
def combinedText (docs : List RawDoc) (google_results : List GoogleResult) : Str :=
  let all_text := List.intercalate (str " ")
    ((docs.filter fun d => d.text ≠ []).map fun d => d.text)
  let google_text := List.intercalate (str " ")
    ((google_results.filter fun r => r.text ≠ []).map fun r => r.text)
  pyStrip (all_text ++ str " " ++ google_text)

/-- The citation list assembled by `MarketMapper.map_market` (market_mapper.py
lines 129-140). -/
def allCitations (docs : List RawDoc) (google_results : List GoogleResult) : List Citation :=
  ((docs.filter fun d => d.text ≠ []).map fun d => create_citation d (d.text.take 200)) ++
  ((google_results.filter fun r => r.text ≠ []).map create_google_citation)

/-- The dict returned by `MarketMapper.map_market`. -/
structure MarketMap where
  market_sizing : Section
  competition : Section
deriving DecidableEq, Repr

/-- `MarketMapper.map_market` (market_mapper.py lines 123-162): runs both
extractors on the combined text and substitutes an empty `Section()` when an
extractor returned `None`. -/
def map_market (docs : List RawDoc) (google_results : List GoogleResult) : MarketMap :=
  let ct := combinedText docs google_results
  let cits := allCitations docs google_results
  { market_sizing :=
      match extract_market_size ct cits with
      | some s => s
      | none => {}
    competition :=
      match extract_competitors ct cits with
      | some s => s
      | none => {} }

/- ## NLExtractor (src/utils/nlp.py) -/

/-- The two-word name sub-pattern `[A-Z][a-z]+\s+[A-Z][a-z]+` of the team
patterns under `re.IGNORECASE`. -/
def nameSeqI : RE := seqR [clsAlphaI, plusR clsAlphaI, plusR dS, clsAlphaI, plusR clsAlphaI]

/-- `team_patterns` (nlp.py lines 64-68), compiled with `re.IGNORECASE`. -/
def team_patterns : List RE :=
  [ seqR [.grp 1 nameSeqI, .star dS, dashMojibake, .star dS,
      .grp 2 (altL [litI "CEO", litI "CTO", litI "COO", litI "Founder",
        litI "Co-founder", litI "President"])],
    seqR [.grp 1 (altL [litI "founded by", litI "co-founded by", litI "led by",
        litI "CEO", litI "CTO", litI "COO"]), .star dS, .grp 2 nameSeqI],
    seqR [.grp 1 nameSeqI, .star dS,
      .grp 2 (altL [litI "CEO", litI "CTO", litI "COO", litI "Founder",
        litI "Co-founder"])] ]

/-- `NLExtractor.extract_team` (nlp.py lines 186-201): collects
`"{group1} - {group2}"` strings over all team patterns and keeps the first
ten as bullets. -/
def extract_team (text : Str) (citations : List Citation) : Section :=
  let team_members := team_patterns.flatMap fun pattern =>
    (reFinditer pattern text).filterMap fun m =>
      if numGroups pattern ≥ 2 then
        some (capStr text m.2.2 1 ++ str " - " ++ capStr text m.2.2 2)
      else none
  { bullets := team_members.take 10, citations := citations }

/-- `tag_paragraph_for_section` (nlp.py lines 9-24): first keyword group,
in insertion order, any of whose keywords occurs in the lowered paragraph. -/
def tag_paragraph_for_section (paragraph : Str) : Option Str :=
  let keyword_groups : List (Str × List Str) :=
    [ (str "funding", [str "raised", str "valuation", str "series", str "funding",
        str "capital", str "$", str "investors"]),
      (str "traction", [str "users", str "maus", str "growth", str "downloads",
        str "monthly", str "adoption", str "customers"]),
      (str "problem", [str "problem", str "pain", str "frustrating",
        str "difficulty", str "challenge"]),
      (str "solution", [str "solve", str "our product", str "we address",
        str "enables", str "platform helps"]),
      (str "product", [str "features", str "dashboard", str "ux", str "tools",
        str "functionality"]),
      (str "business_model", [str "pricing", str "free", str "pro",
        str "enterprise", str "revenue", str "monetize"]) ]
  let p := pyLower paragraph
  (keyword_groups.find? fun g => g.2.any fun kw => pyIn kw p).map fun g => g.1

/-- The citation built for a tagged paragraph in
`NLExtractor.extract_structured_fields` (nlp.py lines 278-283): snippet is
the first 200 characters plus an ellipsis when the paragraph is longer. -/
def sfCitation (url source_type : Str) (timestamp : Nat) (para : Str) : Citation :=
  { url := url,
    snippet := para.take 200 ++ (if para.length > 200 then str "..." else []),
    source_type := source_type,
    timestamp := timestamp }

/- ## Pitch-deck rule-based analyzer (src/agents/pitchdeck_parser.py) -/

/-- One per-slide section dict `{'text': ..., 'bullets': ..., 'citations': ...}`
produced by slide analysis; `merge_slide_results` reads the keys through
`.get`, so each is optional-with-default. -/
structure SlideSection where
  text : Option Str := none
  bullets : List Str := []
  citations : List Str := []
deriving DecidableEq, Repr

/-- The twelve topic keyword lists of `analyze_slide_with_rules`
(pitchdeck_parser.py lines 328-519), in source order. -/
def topicKeywordGroups : List (Str × List Str) :=
  [ (str "problem", [str "problem", str "challenge", str "issue", str "pain point",
      str "struggle", str "difficulty", str "frustration"]),
    (str "solution", [str "solution", str "solve", str "address", str "enable",
      str "provide", str "offer", str "platform", str "product"]),
    (str "team", [str "team", str "founder", str "ceo", str "cto", str "coo",
      str "founders", str "leadership"]),
    (str "market", [str "market", str "tam", str "sam", str "som",
      str "opportunity", str "size", str "billion", str "million"]),
    (str "traction", [str "users", str "customers", str "growth", str "revenue",
      str "funding", str "raised", str "million", str "billion", str "users"]),
    (str "product", [str "product", str "feature", str "platform", str "app",
      str "software", str "tool", str "service"]),
    (str "business_model", [str "business model", str "revenue", str "pricing",
      str "monetization", str "saas", str "subscription", str "freemium"]),
    (str "growth_strategy", [str "growth", str "strategy", str "go-to-market",
      str "acquisition", str "partnership", str "expansion", str "scale"]),
    (str "financials", [str "financial", str "revenue", str "funding",
      str "investment", str "series", str "valuation", str "burn rate",
      str "runway"]),
    (str "risks", [str "risk", str "challenge", str "threat", str "competition",
      str "regulatory", str "execution"]),
    (str "timing", [str "timing", str "now", str "trend", str "market timing",
      str "opportunity", str "momentum", str "wave"]),
    (str "moat", [str "moat", str "defensibility", str "competitive advantage",
      str "barrier", str "network effect", str "proprietary", str "ip"]) ]

/-- One topic block of `analyze_slide_with_rules`: keyword-presence gate over
the lowered slide text, then sentence scan over `slide_text.split('.')`; up to
2 stripped sentences joined as `text`, up to 3 as `bullets`, and the synthetic
`slide_{n}` citation tag. -/
def analyzeTopic (slide_number : Nat) (slide_text : Str) (keywords : List Str) :
    Option SlideSection :=
  let text_lower := pyLower slide_text
  if keywords.any (fun k => pyIn k text_lower) then
    let sentences := slide_text.splitOn '.'
    let matched := sentences.filterMap fun sentence =>
      if keywords.any (fun k => pyIn k (pyLower sentence)) then
        some (pyStrip sentence)
      else none
    if matched ≠ [] then
      some { text := some (List.intercalate (str ". ") (matched.take 2)),
             bullets := (matched.take 3).map pyStrip,
             citations := [str "slide_" ++ str (toString slide_number)] }
    else none
  else none

/-- `analyze_slide_with_rules` (pitchdeck_parser.py lines 312-521): the twelve
topic blocks in source order, keeping the topics that produced content. -/
def analyze_slide_with_rules (slide_number : Nat) (slide_text : Str) :
    List (Str × SlideSection) :=
  topicKeywordGroups.filterMap fun t =>
    (analyzeTopic slide_number slide_text t.2).map fun s => (t.1, s)

/-- The fixed `section_names` list of `merge_slide_results`
(pitchdeck_parser.py lines 539-542). -/
def merge_section_names : List Str :=
  [ str "problem", str "solution", str "product", str "business_model",
    str "traction", str "funding", str "team", str "market",
    str "competition", str "financials" ]

/-- Python dict lookup `slide_result[section_name]` on a slide-result dict. -/
def lookupSec (name : Str) (slide : List (Str × SlideSection)) : Option SlideSection :=
  (slide.find? fun kv => kv.1 = name).map fun kv => kv.2

/-- `section_texts` collected for one section name across all slides
(pitchdeck_parser.py lines 550-555): the truthy `'text'` values. -/
def collectTexts (all_slide_results : List (List (Str × SlideSection))) (name : Str) :
    List Str :=
  all_slide_results.filterMap fun slide =>
    match lookupSec name slide with
    | some sd =>
      match sd.text with
      | some t => if t ≠ [] then some t else none
      | none => none
    | none => none

/-- `section_bullets` collected for one section name across all slides
(pitchdeck_parser.py lines 557-558). -/
def collectBullets (all_slide_results : List (List (Str × SlideSection))) (name : Str) :
    List Str :=
  all_slide_results.flatMap fun slide =>
    match lookupSec name slide with
    | some sd => if sd.bullets ≠ [] then sd.bullets else []
    | none => []

/-- `section_citations` collected for one section name across all slides
(pitchdeck_parser.py lines 560-561). -/
def collectCitations (all_slide_results : List (List (Str × SlideSection))) (name : Str) :
    List Str :=
  all_slide_results.flatMap fun slide =>
    match lookupSec name slide with
    | some sd => if sd.citations ≠ [] then sd.citations else []
    | none => []

/-- Python `list(dict.fromkeys(l))` with an explicit seen-set accumulator:
keeps the first occurrence of each element, in order. -/
def dictFromKeysAux {α : Type} [DecidableEq α] (seen : List α) : List α → List α
  | [] => []
  | x :: xs =>
    if x ∈ seen then dictFromKeysAux seen xs
    else x :: dictFromKeysAux (x :: seen) xs

/-- Python `list(dict.fromkeys(l))`: order-preserving deduplication. -/
def dictFromKeys {α : Type} [DecidableEq α] (l : List α) : List α :=
  dictFromKeysAux [] l

/-- The citation synthesised from a slide tag by `merge_slide_results`
(pitchdeck_parser.py lines 572-579); `datetime.now()` is modelled as tick `0`,
and `citation_text.split()[-1]` as the last whitespace token. -/
def mergeCitation (citation_text : Str) : Citation :=
  { url := str "https://pitch_deck_slide_" ++
      ((pySplitWs citation_text).getLast?.getD []) ++ str ".pdf",
    snippet := str "Pitch deck content",
    source_type := str "pitch_deck",
    timestamp := 0 }

/-- `merge_slide_results` (pitchdeck_parser.py lines 523-588): for each name in
the fixed `section_names` list, concatenate per-slide texts/bullets/citations
and build a `Section` when any text or bullet was found. -/
def merge_slide_results (all_slide_results : List (List (Str × SlideSection))) :
    List (Str × Section) :=
  merge_section_names.filterMap fun section_name =>
    let section_texts := collectTexts all_slide_results section_name
    let section_bullets := collectBullets all_slide_results section_name
    let section_citations := collectCitations all_slide_results section_name
    if section_texts ≠ [] ∨ section_bullets ≠ [] then
      some (section_name,
        { text := some (if section_texts ≠ [] then
              List.intercalate (str " ") section_texts else []),
          bullets := dictFromKeys section_bullets,
          citations := section_citations.map mergeCitation })
    else none

/- ## TextCleaner (src/utils/web_scraper.py) -/

/-- `TextCleaner.junk_phrases` (web_scraper.py lines 22-38). -/
def junk_phrases : List Str :=
  [ str "accept cookies", str "accept all cookies", str "reject cookies",
    str "cookie policy",
    str "click here", str "sign in", str "login", str "register",
    str "subscribe", str "newsletter",
    str "scroll to top", str "back to top", str "menu", str "navigation",
    str "search",
    str "⌘", str "ctrl", str "alt", str "shift", str "mousedown",
    str "mouseup", str "keydown",
    str "play", str "pause", str "stop", str "rewind", str "fast forward",
    str "volume",
    str "zoom in", str "zoom out", str "fullscreen", str "minimize",
    str "maximize",
    str "loading", str "please wait", str "processing", str "submitting",
    str "required field", str "optional", str "form", str "submit", str "reset",
    str "privacy policy", str "terms of service", str "contact us",
    str "about us",
    str "follow us", str "share", str "like", str "comment", str "tweet",
    str "download", str "upload", str "save", str "delete", str "edit",
    str "copy",
    str "close", str "cancel", str "ok", str "yes", str "no", str "confirm",
    str "error", str "warning", str "success", str "info", str "notice",
    str "skip to content", str "skip navigation", str "accessibility",
    str "font size", str "high contrast", str "screen reader" ]

/-- `TextCleaner.ui_patterns` (web_scraper.py lines 41-48), compiled without
flags (case-sensitive); the fifth pattern's class holds `-` and the en-dash. -/
def ui_patterns : List RE :=
  [ seqR [.wordB, clsAZ, plusR clsaz, .star dS, .cls (fun c => c = '+' || c = '-'),
      .star dS, clsAZ, .star clsaz, .wordB],
    seqR [.wordB, clsAZ, plusR clsaz, .star dS, chC '/', .star dS, clsAZ,
      plusR clsaz, .wordB],
    seqR [.wordB, plusR dD, .star dS, clsAZ, plusR clsaz, .wordB],
    seqR [.wordB, clsAZ, plusR clsaz, .star dS, litC "on/off", .wordB],
    seqR [.wordB, clsAZ, plusR clsaz, .star dS,
      .cls (fun c => c = '-' || c = '–'), .star dS, clsAZ, plusR clsaz, .wordB],
    seqR [.wordB, clsAZ, plusR clsaz, .star dS, .cls (fun c => c = '+' || c = '-'),
      .star dS, plusR dD, .wordB] ]

/-- `meaningful_words` (web_scraper.py lines 72-78). -/
def meaningful_words : List Str :=
  [ str "company", str "product", str "service", str "platform", str "solution",
    str "technology",
    str "business", str "customer", str "user", str "market", str "industry",
    str "team",
    str "revenue", str "growth", str "funding", str "investment",
    str "partnership",
    str "launch", str "develop", str "create", str "build", str "provide",
    str "offer",
    str "help", str "enable", str "power", str "drive", str "scale",
    str "expand" ]

/-- `TextCleaner.is_meaningful_text` (web_scraper.py lines 50-81). -/
def is_meaningful_text (text : Str) : Bool :=
  if text = [] || (pyStrip text).length < 40 then false
  else
    let text_lower := pyLower text
    if 0 < junk_phrases.countP (fun phrase => pyIn phrase text_lower) then false
    else if ui_patterns.any (fun pattern => reSearch pattern text) then false
    else if (pySplitWs text).length < 3 then false
    else meaningful_words.any fun word => pyIn word text_lower

/-- The per-line filter of `TextCleaner.clean_text` (web_scraper.py lines
101-114): strip, drop empties, drop short non-meaningful lines, drop lines
containing a junk phrase. -/
def cleanLine (line0 : Str) : Option Str :=
  let line := pyStrip line0
  if line = [] then none
  else if line.length < 20 && !is_meaningful_text line then none
  else if junk_phrases.any (fun phrase => pyIn phrase (pyLower line)) then none
  else some line

/-- The per-paragraph body of `TextCleaner.clean_text` (web_scraper.py lines
92-119): strip, clean the lines, rejoin, keep when meaningful. -/
def cleanParagraph (par0 : Str) : Option Str :=
  let paragraph := pyStrip par0
  if paragraph = [] then none
  else
    let cleaned_lines := (paragraph.splitOn '\n').filterMap cleanLine
    if cleaned_lines = [] then none
    else
      let cleaned_paragraph := List.intercalate ['\n'] cleaned_lines
      if is_meaningful_text cleaned_paragraph then some cleaned_paragraph
      else none

/-- `TextCleaner.clean_text` (web_scraper.py lines 83-121). -/
def clean_text (text : Str) : Str :=
  if text = [] then []
  else List.intercalate (str "\n\n") ((splitNN text).filterMap cleanParagraph)

/- ## Memo renderer (src/agents/memo_generator.py) -/

/-- One citation rendered by the `**Sources:**` loop of `MEMO_TEMPLATE`. -/
def renderCitationMd (c : Citation) : Str :=
  if c.source_type = str "gpt_knowledge" then str "GPT Training Data"
  else if c.source_type ≠ str "pitch_deck" then
    str "[" ++ c.source_type ++ str "](" ++ c.url ++ str ")"
  else str "[Pitch Deck](" ++ c.url ++ str ")"

/-- The `{% if section.citations %}**Sources:** ...{% endif %}` fragment of
each section block of `MEMO_TEMPLATE`. -/
def renderSources (citations : List Citation) : Str :=
  if citations ≠ [] then
    str "**Sources:** " ++
      List.intercalate (str ", ") (citations.map renderCitationMd) ++ str "\n"
  else []

/-- The `{% if section.bullets %}` bullet-list fragment of a section block. -/
def renderBulletList (header : Str) (bullets : List Str) : Str :=
  if bullets ≠ [] then
    header ++ str "\n" ++ (bullets.map fun b => str "- " ++ b ++ str "\n").flatten
  else []

/-- `{{ section.text }}`: Jinja renders Python `None` as the string `None`. -/
def renderTextField (t : Option Str) : Str :=
  match t with
  | some s => s
  | none => str "None"

/-- One section block of `MEMO_TEMPLATE` (memo_generator.py lines 69-84 for
the problem section, and likewise for every other section): body when the
section has content, otherwise the placeholder; then the sources line
whenever citations are non-empty. -/
def renderSectionBlock (heading placeholder bulletsHeader : Str) (s : Section) : Str :=
  heading ++ str "\n" ++
  (if s.has_content then
     renderTextField s.text ++ str "\n" ++ renderBulletList bulletsHeader s.bullets
   else placeholder ++ str "\n") ++
  renderSources s.citations ++ str "\n"

/-- A section block of `MEMO_TEMPLATE`: heading, placeholder (possibly using
the company name), bullet-list header and section accessor. -/
structure MemoBlock where
  heading : Str
  placeholder : StructuredCompanyDoc → Str
  bulletsHeader : Str
  get : StructuredCompanyDoc → Section

/-- The section blocks of `MEMO_TEMPLATE` (memo_generator.py lines 5-289), in
template order; the `intro` section is rendered twice (Executive Summary and
Company Overview). -/
def memoBlocks : List MemoBlock :=
  [ { heading := str "## Investment Recommendations",
      placeholder := fun _ =>
        str "**Investment Decision: [To be determined based on due diligence]**\n\n**Key Decision Points:**\n- Speed assessment pending\n- Depth evaluation required\n- Taste alignment to be verified\n- Influence potential needs validation",
      bulletsHeader := str "**Key Decision Points:**",
      get := fun d => d.recommendations },
    { heading := str "---\n\n## 1. Executive Summary",
      placeholder := fun d => d.name ++
        str " is a [industry] company that [brief description of what they do]. The company addresses [core problem] through [unique solution], serving [target market]. [Funding status if available].",
      bulletsHeader := str "**Key Points:**",
      get := fun d => d.intro },
    { heading := str "## 2. Company Overview",
      placeholder := fun d => d.name ++
        str " is a [industry] company focused on [core business area]. The company was founded to [mission/vision].",
      bulletsHeader := str "**Key Milestones:**",
      get := fun d => d.intro },
    { heading := str "## 3. Problem",
      placeholder := fun _ => str "[Problem description not provided in pitch deck]",
      bulletsHeader := str "**Key Issues:**",
      get := fun d => d.problem },
    { heading := str "## 4. Solution",
      placeholder := fun _ => str "[Solution details not provided in pitch deck]",
      bulletsHeader := str "**Key Value Propositions:**",
      get := fun d => d.solution },
    { heading := str "## 5. Product",
      placeholder := fun _ => str "[Product details not provided in pitch deck]",
      bulletsHeader := str "**Key Features:**",
      get := fun d => d.product },
    { heading := str "## 6. Business Model",
      placeholder := fun _ => str "[Business model details not provided in pitch deck]",
      bulletsHeader := str "**Revenue Streams:**",
      get := fun d => d.business_model },
    { heading := str "## 7. Market Size",
      placeholder := fun _ => str "[Market size data not provided in pitch deck]",
      bulletsHeader := str "**Market Insights:**",
      get := fun d => d.market },
    { heading := str "## 8. Traction",
      placeholder := fun _ => str "[Traction data not provided in pitch deck]",
      bulletsHeader := str "**Key Metrics:**",
      get := fun d => d.traction },
    { heading := str "## 9. Growth Strategy",
      placeholder := fun _ => str "[Growth strategy details not provided in pitch deck]",
      bulletsHeader := str "**Growth Tactics:**",
      get := fun d => d.growth_strategy },
    { heading := str "## 10. Team",
      placeholder := fun _ => str "[Team information not provided in pitch deck]",
      bulletsHeader := str "**Key Team Members:**",
      get := fun d => d.team },
    { heading := str "## 11. Competition",
      placeholder := fun _ => str "[Competitive analysis not provided in pitch deck]",
      bulletsHeader := str "**Key Competitors:**",
      get := fun d => d.competitors },
    { heading := str "## 12. Financials",
      placeholder := fun _ => str "[Financial data not provided in pitch deck]",
      bulletsHeader := str "**Financial Highlights:**",
      get := fun d => d.financials },
    { heading := str "## 13. Risks",
      placeholder := fun _ => str "[Risk assessment not provided in pitch deck]",
      bulletsHeader := str "**Key Risk Factors:**",
      get := fun d => d.risks },
    { heading := str "## 14. Timing",
      placeholder := fun _ => str "[Timing analysis not provided in pitch deck]",
      bulletsHeader := str "**Timing Factors:**",
      get := fun d => d.timing },
    { heading := str "## 15. Moat",
      placeholder := fun _ => str "[Competitive moat analysis not provided in pitch deck]",
      bulletsHeader := str "**Competitive Advantages:**",
      get := fun d => d.moat } ]

/-- `generate_memo` (memo_generator.py lines 291-297): the rendered template,
header followed by the section blocks in order.  The `memo_date` default
(`date.today()`) is passed explicitly. -/
def generate_memo (company : StructuredCompanyDoc) (memo_date : Str) : Str :=
  str "\n# " ++ company.name ++ str " Investment Memo\nPrepared on " ++
    memo_date ++ str "\n\n" ++
  (memoBlocks.map fun b =>
    renderSectionBlock b.heading (b.placeholder company) b.bulletsHeader
      (b.get company)).flatten

/- ## Helper lemmas -/

/-- In a pair list whose keys are distinct, two entries with the same key are
equal. -/
theorem snd_eq_of_nodup_keys {α β : Type} {l : List (α × β)}
    (h : (l.map Prod.fst).Nodup) {a : α} {b₁ b₂ : β}
    (h1 : (a, b₁) ∈ l) (h2 : (a, b₂) ∈ l) : b₁ = b₂ := by
  induction l with
  | nil => cases h1
  | cons hd tl ih =>
    simp only [List.map_cons, List.nodup_cons] at h
    rcases List.mem_cons.mp h1 with e1 | m1 <;> rcases List.mem_cons.mp h2 with e2 | m2
    · rw [← e1] at e2
      exact congrArg Prod.snd e2.symm
    · exact absurd (List.mem_map_of_mem Prod.fst m2) (by simp [← e1] at h ⊢; exact h.1)
    · exact absurd (List.mem_map_of_mem Prod.fst m1) (by simp [← e2] at h ⊢; exact h.1)
    · exact ih h.2 m1 m2

/-- `dictFromKeysAux` returns a sublist of its input. -/
theorem dictFromKeysAux_sublist {α : Type} [DecidableEq α] (seen : List α) :
    ∀ l : List α, (dictFromKeysAux seen l).Sublist l := by
  intro l
  induction l generalizing seen with
  | nil => simp [dictFromKeysAux]
  | cons x xs ih =>
    by_cases hx : x ∈ seen
    · simpa [dictFromKeysAux, hx] using (ih seen).cons x
    · simpa [dictFromKeysAux, hx] using (ih (x :: seen)).cons₂ x

/-- Membership in `dictFromKeysAux`: present in the input and not yet seen. -/
theorem mem_dictFromKeysAux {α : Type} [DecidableEq α] {a : α} (seen : List α) :
    ∀ l : List α, a ∈ dictFromKeysAux seen l ↔ a ∈ l ∧ a ∉ seen := by
  intro l
  induction l generalizing seen with
  | nil => simp [dictFromKeysAux]
  | cons x xs ih =>
    by_cases hx : x ∈ seen
    · rw [dictFromKeysAux, if_pos hx, ih seen]
      constructor
      · exact fun h => ⟨List.mem_cons_of_mem x h.1, h.2⟩
      · rintro ⟨hm, hs⟩
        rcases List.mem_cons.mp hm with rfl | hm
        · exact absurd hx hs
        · exact ⟨hm, hs⟩
    · rw [dictFromKeysAux, if_neg hx]
      by_cases ha : a = x
      · subst ha
        simp [hx]
      · simp only [List.mem_cons, ha, false_or]
        rw [ih (x :: seen)]
        simp [ha]

/-- `dictFromKeysAux` returns a duplicate-free list. -/
theorem nodup_dictFromKeysAux {α : Type} [DecidableEq α] (seen : List α) :
    ∀ l : List α, (dictFromKeysAux seen l).Nodup := by
  intro l
  induction l generalizing seen with
  | nil => simp [dictFromKeysAux]
  | cons x xs ih =>
    by_cases hx : x ∈ seen
    · rw [dictFromKeysAux, if_pos hx]
      exact ih seen
    · rw [dictFromKeysAux, if_neg hx]
      refine List.nodup_cons.mpr ⟨fun hm => ?_, ih (x :: seen)⟩
      exact ((mem_dictFromKeysAux (x :: seen) xs).mp hm).2 (List.mem_cons_self x seen)

/- ## Claim theorems -/

/-- C8: `Section.has_content()` returns true iff at least one of the text,
bullets or metrics fields is non-empty (a `text` of `None` or `""` does not
count; citations play no role). -/
theorem C8_has_content_iff (s : Section) :
    s.has_content = true ↔
      ((∃ t, s.text = some t ∧ t ≠ []) ∨ s.bullets ≠ [] ∨ s.metrics ≠ []) := by
  unfold Section.has_content textTruthy
  cases h : s.text <;> simp [h, or_assoc]

/-- C9: `get_missing_fields` and the keys of `get_populated_sections`
partition the full fixed set of fifteen section names: their union is exactly
that set and they are disjoint. -/
theorem C9_missing_populated_partition (d : StructuredCompanyDoc) :
    (∀ name : Str, name ∈ allSectionNames ↔
      (name ∈ get_missing_fields d ∨
       name ∈ (get_populated_sections d).map Prod.fst)) ∧
    (∀ name : Str, ¬ (name ∈ get_missing_fields d ∧
       name ∈ (get_populated_sections d).map Prod.fst)) := by
  have hkeys : (sectionItems d).map Prod.fst = allSectionNames := rfl
  have hnodup : ((sectionItems d).map Prod.fst).Nodup := by
    rw [hkeys]
    decide
  constructor
  · intro name
    rw [← hkeys]
    simp only [get_missing_fields, get_populated_sections, List.map_filter,
      List.mem_map, List.mem_filter, Function.comp]
    constructor
    · rintro ⟨it, hit, rfl⟩
      by_cases hc : it.2.has_content
      · exact Or.inr ⟨it, ⟨hit, hc⟩, rfl⟩
      · exact Or.inl ⟨it, ⟨hit, by simp [hc]⟩, rfl⟩
    · rintro (⟨it, ⟨hit, _⟩, rfl⟩ | ⟨it, ⟨hit, _⟩, rfl⟩) <;> exact ⟨it, hit, rfl⟩
  · rintro name ⟨hm, hp⟩
    simp only [get_missing_fields, get_populated_sections, List.map_filter,
      List.mem_map, List.mem_filter, Function.comp] at hm hp
    obtain ⟨⟨a, s₁⟩, ⟨hin₁, hc₁⟩, h₁⟩ := hm
    obtain ⟨⟨a₂, s₂⟩, ⟨hin₂, hc₂⟩, h₂⟩ := hp
    simp only at h₁ h₂
    subst h₁
    subst h₂
    have := snd_eq_of_nodup_keys hnodup hin₁ hin₂
    subst this
    simp [hc₂] at hc₁

set_option maxRecDepth 8000 in
/-- C3 counterexample: `create_citation` truncates to 200 characters and then
appends a three-character ellipsis, so a 201-character snippet yields a
203-character `Citation.snippet`, contradicting the claimed bound of 200. -/
theorem C3_counterexample :
    ((create_citation
        { url := str "https://example.com", title := [], text := [],
          source_type := str "website", timestamp := 0 }
        (List.replicate 201 'a')).snippet).length = 203 ∧
    ¬ ((create_citation
        { url := str "https://example.com", title := [], text := [],
          source_type := str "website", timestamp := 0 }
        (List.replicate 201 'a')).snippet).length ≤ 200 := by
  constructor <;> decide

/-- C3 amended: every snippet produced by `create_citation`,
`create_google_citation` and the `extract_structured_fields` citation builder
has length at most 203 (at most 200 characters of source text plus the
three-character ellipsis). -/
theorem C3_snippet_le_203 (raw_doc : RawDoc) (snippet : Str) (result : GoogleResult)
    (url source_type : Str) (timestamp : Nat) (para : Str) :
    (create_citation raw_doc snippet).snippet.length ≤ 203 ∧
    (create_google_citation result).snippet.length ≤ 203 ∧
    (sfCitation url source_type timestamp para).snippet.length ≤ 203 := by
  have hdots : (str "...").length = 3 := rfl
  have key : ∀ s : Str,
      (if s.length > 200 then s.take 200 ++ str "..." else s).length ≤ 203 := by
    intro s
    split
    · simp only [List.length_append, List.length_take, hdots]
      omega
    · omega
  have key2 : ∀ s : Str,
      (s.take 200 ++ (if s.length > 200 then str "..." else [])).length ≤ 203 := by
    intro s
    split <;> simp only [List.length_append, List.length_take, hdots, List.length_nil] <;>
      omega
  exact ⟨key snippet, key result.snippet, key2 para⟩

/-- C5 counterexample: a text with six name-role matches yields six team
bullets, contradicting the claimed cap of five. -/
theorem C5_counterexample :
    ¬ ((extract_team
      (str "Aa Bb CEO. Cc Dd CEO. Ee Ff CEO. Gg Hh CEO. Ii Jj CEO. Kk Ll CEO")
      []).bullets.length ≤ 5) := by
  decide

/-- C5 amended: `extract_team` caps its bullets at the first ten collected
team members (`team_members[:10]`), not five. -/
theorem C5_team_bullets_le_10 (text : Str) (citations : List Citation) :
    (extract_team text citations).bullets.length ≤ 10 := by
  simpa [extract_team] using List.length_take_le 10 _

/-- C4 counterexample: on a sentence matched by both the TAM pattern and the
amount-before-keyword pattern, `extract_market_size` collects the same
sentence twice — the assembled sentence list is not deduplicated. -/
theorem C4_counterexample :
    marketSentences (str "The TAM is a $5 billion market today.") =
      [str "The TAM is a $5 billion market today",
       str "The TAM is a $5 billion market today"] ∧
    ¬ (marketSentences (str "The TAM is a $5 billion market today.")).Nodup := by
  constructor <;> decide

/-- C4 amended: the sentence list assembled by `extract_market_size` is not
deduplicated (a sentence matched by several patterns appears several times),
but the returned Section's text is built from at most the first two entries
of that list. -/
theorem C4_market_text_from_first_two (text : Str) (citations : List Citation)
    (sec : Section) (h : extract_market_size text citations = some sec) :
    sec.text = some (List.intercalate (str ". ") ((marketSentences text).take 2)) ∧
    ((marketSentences text).take 2).length ≤ 2 := by
  simp only [extract_market_size] at h
  split at h
  · cases h
    exact ⟨rfl, List.length_take_le 2 _⟩
  · cases h

/-- Witness for C4: the duplicate-sentence input exercises the theorem. -/
theorem C4_witness :
    extract_market_size (str "The TAM is a $5 billion market today.") [] =
      some ({ text := some (str "The TAM is a $5 billion market today. The TAM is a $5 billion market today"),
              citations := [] } : Section) ∧
    (({ text := some (str "The TAM is a $5 billion market today. The TAM is a $5 billion market today"),
        citations := [] } : Section).text =
      some (List.intercalate (str ". ")
        ((marketSentences (str "The TAM is a $5 billion market today.")).take 2)) ∧
     ((marketSentences (str "The TAM is a $5 billion market today.")).take 2).length ≤ 2) :=
  ⟨by decide,
   C4_market_text_from_first_two (str "The TAM is a $5 billion market today.") []
     ({ text := some (str "The TAM is a $5 billion market today. The TAM is a $5 billion market today"),
        citations := [] } : Section) (by decide)⟩

/-- C2 counterexample: on the empty text no pattern matches, and both
`extract_market_size` and `extract_competitors` return `None`, not an empty
`Section()`. -/
theorem C2_counterexample :
    extract_market_size (str "") [] = none ∧ extract_competitors (str "") [] = none := by
  constructor <;> decide

/-- C2 amended: the extractors themselves return `None` when nothing is
found; it is `map_market` that substitutes an empty `Section()` for a `None`
result (and passes through a found `Section` unchanged), so callers of
`map_market` never receive a null. -/
theorem C2_map_market_never_none (docs : List RawDoc) (google_results : List GoogleResult) :
    (extract_market_size (combinedText docs google_results)
        (allCitations docs google_results) = none →
      (map_market docs google_results).market_sizing = ({} : Section)) ∧
    (∀ s, extract_market_size (combinedText docs google_results)
        (allCitations docs google_results) = some s →
      (map_market docs google_results).market_sizing = s) ∧
    (extract_competitors (combinedText docs google_results)
        (allCitations docs google_results) = none →
      (map_market docs google_results).competition = ({} : Section)) ∧
    (∀ s, extract_competitors (combinedText docs google_results)
        (allCitations docs google_results) = some s →
      (map_market docs google_results).competition = s) := by
  refine ⟨fun h => ?_, fun s h => ?_, fun h => ?_, fun s h => ?_⟩ <;>
    simp [map_market, h]

/-- Witness for C2: with no documents and no search results the combined text
is empty, the market-size extractor returns `None`, and `map_market`
substitutes the empty section. -/
theorem C2_witness :
    extract_market_size (combinedText [] []) (allCitations [] []) = none ∧
      (map_market [] []).market_sizing = ({} : Section) :=
  ⟨by decide, (C2_map_market_never_none [] []).1 (by decide)⟩

/-- C6: every section produced by `analyze_slide_with_rules` has text built
from at most two matched (stripped) sentences, at most three bullets, and the
single synthetic `slide_{n}` citation tag. -/
theorem C6_slide_rules_shape (n : Nat) (slide_text : Str) (name : Str)
    (sec : SlideSection) (h : (name, sec) ∈ analyze_slide_with_rules n slide_text) :
    sec.citations = [str "slide_" ++ str (toString n)] ∧
    sec.bullets.length ≤ 3 ∧
    (∃ l : List Str, sec.text = some (List.intercalate (str ". ") l) ∧
      l.length ≤ 2 ∧ ∀ s ∈ l, s ∈ (slide_text.splitOn '.').map pyStrip) := by
  simp only [analyze_slide_with_rules, List.mem_filterMap] at h
  obtain ⟨t, ht, hmap⟩ := h
  rcases hopt : analyzeTopic n slide_text t.2 with _ | s0
  · rw [hopt] at hmap
    cases hmap
  · rw [hopt] at hmap
    simp only [Option.map_some'] at hmap
    obtain ⟨rfl, rfl⟩ := Prod.mk.injEq .. |>.mp (Option.some.inj hmap)
    simp only [analyzeTopic] at hopt
    split at hopt
    · split at hopt
      · obtain rfl := Option.some.inj hopt
        refine ⟨rfl, ?_, ?_⟩
        · simpa using List.length_take_le 3 _
        · refine ⟨_, rfl, List.length_take_le 2 _, fun s hs => ?_⟩
          have hs2 := List.take_subset 2 _ hs
          simp only [List.mem_filterMap] at hs2
          obtain ⟨sentence, hsent, hif⟩ := hs2
          split at hif
          · obtain rfl := Option.some.inj hif
            exact List.mem_map_of_mem pyStrip hsent
          · cases hif
      · cases hopt
    · cases hopt

/-- Witness for C6: a one-sentence problem slide exercises the theorem. -/
theorem C6_witness :
    (str "problem",
      ({ text := some (str "Our problem is big"),
         bullets := [str "Our problem is big"],
         citations := [str "slide_1"] } : SlideSection)) ∈
        analyze_slide_with_rules 1 (str "Our problem is big.") ∧
    (({ text := some (str "Our problem is big"),
        bullets := [str "Our problem is big"],
        citations := [str "slide_1"] } : SlideSection).citations =
      [str "slide_" ++ str (toString 1)] ∧
     ({ text := some (str "Our problem is big"),
        bullets := [str "Our problem is big"],
        citations := [str "slide_1"] } : SlideSection).bullets.length ≤ 3 ∧
     (∃ l : List Str,
        ({ text := some (str "Our problem is big"),
           bullets := [str "Our problem is big"],
           citations := [str "slide_1"] } : SlideSection).text =
          some (List.intercalate (str ". ") l) ∧
        l.length ≤ 2 ∧
        ∀ s ∈ l, s ∈ ((str "Our problem is big.").splitOn '.').map pyStrip)) :=
  ⟨by decide,
   C6_slide_rules_shape 1 (str "Our problem is big.") (str "problem")
     ({ text := some (str "Our problem is big"),
        bullets := [str "Our problem is big"],
        citations := [str "slide_1"] } : SlideSection) (by decide)⟩

/-- C1 counterexample: `merge_slide_results` iterates only over its fixed
ten-name list, so a slide dict populating `risks` with non-empty text is
dropped entirely (the merged result is empty). -/
theorem C1_counterexample :
    merge_slide_results
      [[(str "risks", ({ text := some (str "Execution risk is real") } : SlideSection))]] =
      [] := by
  decide

/-- C1 amended: `merge_slide_results` never drops a section name from its
fixed ten-name list (`problem`, `solution`, `product`, `business_model`,
`traction`, `funding`, `team`, `market`, `competition`, `financials`) that
some slide dict maps to non-empty text; names outside that list (such as
`risks`, `timing`, `moat`, `growth_strategy`) are dropped.  Within each merged
Section, bullets collected across slides are deduplicated preserving
first-occurrence order (duplicate-free, a sublist of the collected bullets,
with the same members). -/
theorem C1_merge_slide_results_amended :
    (∀ (all_slide_results : List (List (Str × SlideSection))) (name : Str),
      name ∈ merge_section_names →
      (∃ slide ∈ all_slide_results, ∃ sd, lookupSec name slide = some sd ∧
        ∃ t, sd.text = some t ∧ t ≠ []) →
      name ∈ (merge_slide_results all_slide_results).map Prod.fst) ∧
    (∀ (all_slide_results : List (List (Str × SlideSection))) (name : Str)
        (sec : Section),
      (name, sec) ∈ merge_slide_results all_slide_results →
      sec.bullets = dictFromKeys (collectBullets all_slide_results name) ∧
      sec.bullets.Nodup ∧
      sec.bullets.Sublist (collectBullets all_slide_results name) ∧
      (∀ b, b ∈ sec.bullets ↔ b ∈ collectBullets all_slide_results name)) := by
  constructor
  · intro R name hn hex
    obtain ⟨slide, hslide, sd, hlook, t, htext, hne⟩ := hex
    have htexts : t ∈ collectTexts R name := by
      simp only [collectTexts, List.mem_filterMap]
      refine ⟨slide, hslide, ?_⟩
      simp [hlook, htext, hne]
    have hne2 : collectTexts R name ≠ [] := by
      intro h0
      rw [h0] at htexts
      cases htexts
    simp only [merge_slide_results, List.mem_map, List.mem_filterMap]
    exact ⟨(name, _), ⟨name, hn, by rw [if_pos (Or.inl hne2)]⟩, rfl⟩
  · intro R name sec hmem
    simp only [merge_slide_results, List.mem_filterMap] at hmem
    obtain ⟨a, _, hf⟩ := hmem
    split at hf
    · obtain ⟨rfl, rfl⟩ := Prod.mk.injEq .. |>.mp (Option.some.inj hf)
      refine ⟨rfl, nodup_dictFromKeysAux [] _, dictFromKeysAux_sublist [] _, fun b => ?_⟩
      show b ∈ dictFromKeysAux [] _ ↔ _
      rw [mem_dictFromKeysAux]
      simp
    · cases hf

/-- Witness for C1: a slide populating `problem` with text and a duplicated
bullet exercises both halves of the theorem. -/
theorem C1_witness :
    ((∃ slide ∈ [[(str "problem",
        ({ text := some (str "We solve pain"),
           bullets := [str "b1", str "b1", str "b2"] } : SlideSection))]],
      ∃ sd, lookupSec (str "problem") slide = some sd ∧
        ∃ t, sd.text = some t ∧ t ≠ []) ∧
     (str "problem") ∈ (merge_slide_results
       [[(str "problem",
         ({ text := some (str "We solve pain"),
            bullets := [str "b1", str "b1", str "b2"] } : SlideSection))]]).map Prod.fst) ∧
    ((str "problem",
       ({ text := some (str "We solve pain"),
          bullets := [str "b1", str "b2"],
          citations := [] } : Section)) ∈ merge_slide_results
         [[(str "problem",
           ({ text := some (str "We solve pain"),
              bullets := [str "b1", str "b1", str "b2"] } : SlideSection))]] ∧
     ({ text := some (str "We solve pain"),
        bullets := [str "b1", str "b2"],
        citations := [] } : Section).bullets.Nodup) := by
  have hx : ∃ slide ∈ [[(str "problem",
      ({ text := some (str "We solve pain"),
         bullets := [str "b1", str "b1", str "b2"] } : SlideSection))]],
      ∃ sd, lookupSec (str "problem") slide = some sd ∧
        ∃ t, sd.text = some t ∧ t ≠ [] :=
    ⟨_, List.mem_cons_self _ _, _, rfl, str "We solve pain", rfl, by decide⟩
  have hmem' : (str "problem",
      ({ text := some (str "We solve pain"),
         bullets := [str "b1", str "b2"],
         citations := [] } : Section)) ∈ merge_slide_results
       [[(str "problem",
         ({ text := some (str "We solve pain"),
            bullets := [str "b1", str "b1", str "b2"] } : SlideSection))]] := by decide
  refine ⟨⟨hx, C1_merge_slide_results_amended.1
      [[(str "problem",
        ({ text := some (str "We solve pain"),
           bullets := [str "b1", str "b1", str "b2"] } : SlideSection))]]
      (str "problem") (by decide) hx⟩,
    hmem',
    (C1_merge_slide_results_amended.2
      [[(str "problem",
        ({ text := some (str "We solve pain"),
           bullets := [str "b1", str "b1", str "b2"] } : SlideSection))]]
      (str "problem")
      ({ text := some (str "We solve pain"),
         bullets := [str "b1", str "b2"],
         citations := [] } : Section) hmem').2.1⟩

/-- C10: `generate_memo` renders a section's `**Sources:**` line whenever the
section's citations list is non-empty, even when the section has no content
and the placeholder body is rendered: the memo then contains the placeholder
followed (later) by the sources marker for that same block. -/
theorem C10_placeholder_with_sources (d : StructuredCompanyDoc) (memo_date : Str)
    (i : Nat) (hi : i < memoBlocks.length)
    (hc : ((memoBlocks.get ⟨i, hi⟩).get d).citations ≠ [])
    (hn : ((memoBlocks.get ⟨i, hi⟩).get d).has_content = false) :
    ∃ pre mid post, generate_memo d memo_date =
      pre ++ (memoBlocks.get ⟨i, hi⟩).placeholder d ++ mid ++
        str "**Sources:** " ++ post := by
  have hdecomp : memoBlocks =
      memoBlocks.take i ++ memoBlocks.get ⟨i, hi⟩ :: memoBlocks.drop (i + 1) := by
    conv_lhs => rw [← List.take_append_drop i memoBlocks]
    rw [List.drop_eq_get_cons hi]
  unfold generate_memo
  refine ⟨str "\n# " ++ d.name ++ str " Investment Memo\nPrepared on " ++ memo_date ++
      str "\n\n" ++
      (List.map (fun b => renderSectionBlock b.heading (b.placeholder d) b.bulletsHeader
        (b.get d)) (memoBlocks.take i)).flatten ++
      (memoBlocks.get ⟨i, hi⟩).heading ++ str "\n",
    str "\n",
    List.intercalate (str ", ")
        ((((memoBlocks.get ⟨i, hi⟩).get d).citations).map renderCitationMd) ++
      str "\n" ++ str "\n" ++
      (List.map (fun b => renderSectionBlock b.heading (b.placeholder d) b.bulletsHeader
        (b.get d)) (memoBlocks.drop (i + 1))).flatten, ?_⟩
  simp only [List.get_eq_getElem] at hn hc
  conv_lhs => rw [hdecomp]
  simp only [List.map_append, List.map_cons, List.flatten_append, List.flatten_cons]
  simp [renderSectionBlock, hn, hc, renderSources, List.append_assoc,
    List.map_drop, List.map_take]

/-- The concrete document exercising the C10 theorem: a problem section with a
citation and no content. -/
def C10doc : StructuredCompanyDoc :=
  { name := str "Acme",
    problem := { citations := [⟨str "https://a.com", [], str "website", 0⟩] } }

/-- Witness for C10: the problem block (index 3) of `C10doc` has a citation
and no content, and the memo contains its placeholder and a sources marker. -/
theorem C10_witness :
    ((memoBlocks.get ⟨3, by decide⟩).get C10doc).citations ≠ [] ∧
    ((memoBlocks.get ⟨3, by decide⟩).get C10doc).has_content = false ∧
    (∃ pre mid post,
      generate_memo C10doc (str "Jan 01, 2026") =
        pre ++ (memoBlocks.get ⟨3, by decide⟩).placeholder C10doc ++ mid ++
          str "**Sources:** " ++ post) :=
  ⟨by decide, by decide,
   C10_placeholder_with_sources C10doc (str "Jan 01, 2026") 3 (by decide)
     (by decide) (by decide)⟩

/- ## Lemmas for the idempotence of `clean_text` -/

/-- Dropping while a predicate holds leaves a list whose head fails the
predicate. -/
theorem head_dropWhile_false {p : Char → Bool} {l : Str} {c : Char}
    (h : (l.dropWhile p).head? = some c) : p c = false := by
  have := List.head?_dropWhile_not p l
  rw [h] at this
  exact this

/-- A list whose head fails the predicate is unchanged by `dropWhile`. -/
theorem dropWhile_eq_self_of_head {p : Char → Bool} {l : Str}
    (h : ∀ c, l.head? = some c → p c = false) : l.dropWhile p = l := by
  cases l with
  | nil => rfl
  | cons c cs =>
    rw [List.dropWhile_cons, if_neg]
    simp [h c rfl]

/-- The head of a non-empty stripped string is not whitespace. -/
theorem pyStrip_head_not_space {x : Str} {c : Char}
    (h : (pyStrip x).head? = some c) : pyIsSpace c = false := by
  unfold pyStrip at h
  rw [List.head?_reverse] at h
  have hsuf := List.dropWhile_suffix (l := (x.dropWhile pyIsSpace).reverse) pyIsSpace
  obtain ⟨t, ht⟩ := hsuf
  have hne : (x.dropWhile pyIsSpace).reverse.dropWhile pyIsSpace ≠ [] := by
    intro h0
    rw [h0] at h
    cases h
  have hR : ((x.dropWhile pyIsSpace).reverse).getLast? = some c := by
    rw [← ht, List.getLast?_append_of_ne_nil t hne]
    exact h
  rw [List.getLast?_reverse] at hR
  exact head_dropWhile_false hR

/-- The last character of a non-empty stripped string is not whitespace. -/
theorem pyStrip_getLast_not_space {x : Str} {c : Char}
    (h : (pyStrip x).getLast? = some c) : pyIsSpace c = false := by
  unfold pyStrip at h
  rw [List.getLast?_reverse] at h
  exact head_dropWhile_false h

/-- A string whose first and last characters are not whitespace is unchanged
by `pyStrip`. -/
theorem pyStrip_eq_self {x : Str}
    (h1 : ∀ c, x.head? = some c → pyIsSpace c = false)
    (h2 : ∀ c, x.getLast? = some c → pyIsSpace c = false) : pyStrip x = x := by
  unfold pyStrip
  rw [dropWhile_eq_self_of_head h1]
  rw [dropWhile_eq_self_of_head (fun c hc => h2 c (by rw [← List.head?_reverse]; exact hc))]
  exact List.reverse_reverse x

/-- `pyStrip` is idempotent. -/
theorem pyStrip_idem (x : Str) : pyStrip (pyStrip x) = pyStrip x := by
  by_cases h : pyStrip x = []
  · rw [h]
    rfl
  · exact pyStrip_eq_self (fun c hc => pyStrip_head_not_space hc)
      (fun c hc => pyStrip_getLast_not_space hc)

/-- Every character of a stripped string occurs in the original. -/
theorem mem_of_mem_pyStrip {x : Str} {c : Char} (h : c ∈ pyStrip x) : c ∈ x := by
  unfold pyStrip at h
  rw [List.mem_reverse] at h
  have h2 := (List.dropWhile_suffix
    (l := (x.dropWhile pyIsSpace).reverse) pyIsSpace).sublist.subset h
  rw [List.mem_reverse] at h2
  exact (List.dropWhile_suffix (l := x) pyIsSpace).sublist.subset h2

/-- Every element of `splitOnP p` consists of characters failing `p`. -/
theorem forall_mem_splitOnP_false {p : Char → Bool} (s : Str) :
    ∀ l ∈ s.splitOnP p, ∀ x ∈ l, p x = false := by
  induction s with
  | nil =>
    intro l hl x hx
    rw [List.splitOnP_nil] at hl
    simp at hl
    subst hl
    cases hx
  | cons c cs ih =>
    intro l hl x hx
    rw [List.splitOnP_cons] at hl
    by_cases hc : p c
    · rw [if_pos hc] at hl
      rcases List.mem_cons.mp hl with rfl | hl2
      · cases hx
      · exact ih l hl2 x hx
    · rw [if_neg hc] at hl
      rcases h : cs.splitOnP p with _ | ⟨hd, tl⟩
      · exact absurd h (List.splitOnP_ne_nil p cs)
      · rw [h, List.modifyHead_cons] at hl
        rcases List.mem_cons.mp hl with rfl | hl2
        · rcases List.mem_cons.mp hx with rfl | hx2
          · simpa using hc
          · exact ih hd (h ▸ List.mem_cons_self hd tl) x hx2
        · exact ih l (h ▸ List.mem_cons_of_mem hd hl2) x hx

/-- Unfolding of `splitNN` on a cons cell. -/
theorem splitNN_cons (c : Char) (rest : Str) :
    splitNN (c :: rest) =
      if c = '\n' ∧ rest.head? = some '\n' then [] :: splitNN rest.tail
      else match splitNN rest with
        | [] => [[c]]
        | p :: ps => (c :: p) :: ps := by
  rw [splitNN]

/-- A string without consecutive newlines is a single `splitNN` chunk. -/
theorem splitNN_no_sep : ∀ p : Str, hasNN p = false → splitNN p = [p] := by
  intro p
  induction p with
  | nil =>
    intro _
    rw [splitNN]
  | cons c rest ih =>
    intro h
    simp only [hasNN, Bool.or_eq_false_iff, Bool.and_eq_false_iff] at h
    have hcond : ¬ (c = '\n' ∧ rest.head? = some '\n') := by
      rintro ⟨h1, h2⟩
      rcases h.1 with hb | hb <;> simp [h1, h2] at hb
    rw [splitNN_cons, if_neg hcond, ih h.2]

/-- Appending after a newline-free prefix cannot create consecutive
newlines when the suffix has none and does not start adjacent to one. -/
theorem hasNN_append_of_not_mem (l m : Str) (hl : '\n' ∉ l) (hm : hasNN m = false)
    (hb : ∀ c, l.getLast? = some c → ∀ d, m.head? = some d → ¬(c = '\n' ∧ d = '\n')) :
    hasNN (l ++ m) = false := by
  induction l with
  | nil => simpa using hm
  | cons c cs ih =>
    have hc : c ≠ '\n' := fun h => hl (h ▸ List.mem_cons_self c cs)
    simp only [List.cons_append, hasNN, Bool.or_eq_false_iff, Bool.and_eq_false_iff]
    refine ⟨Or.inl (by simp [hc]), ?_⟩
    exact ih (fun h => hl (List.mem_cons_of_mem c h))
      (fun c' hc' d hd hcd => hb c' (by cases cs with
        | nil => cases hc'
        | cons a as => rwa [List.getLast?_cons_cons]) d hd hcd)

/-- A string without newlines has no consecutive newlines. -/
theorem hasNN_of_not_mem (l : Str) (hl : '\n' ∉ l) : hasNN l = false := by
  induction l with
  | nil => rfl
  | cons c cs ih =>
    have hc : c ≠ '\n' := fun h => hl (h ▸ List.mem_cons_self c cs)
    simp only [hasNN, Bool.or_eq_false_iff, Bool.and_eq_false_iff]
    exact ⟨Or.inl (by simp [hc]), ih (fun h => hl (List.mem_cons_of_mem c h))⟩

/-- `splitNN` splits once at an explicit double-newline separator following a
chunk with no consecutive newlines that does not end in a newline. -/
theorem splitNN_append (p t : Str) (hp : hasNN p = false)
    (hl : ∀ c, p.getLast? = some c → c ≠ '\n') :
    splitNN (p ++ '\n' :: '\n' :: t) = p :: splitNN t := by
  induction p with
  | nil =>
    rw [List.nil_append, splitNN_cons, if_pos ⟨rfl, rfl⟩]
    rfl
  | cons c rest ih =>
    simp only [hasNN, Bool.or_eq_false_iff, Bool.and_eq_false_iff] at hp
    have hcond : ¬ (c = '\n' ∧ (rest ++ '\n' :: '\n' :: t).head? = some '\n') := by
      rintro ⟨rfl, h2⟩
      cases rest with
      | nil => exact hl '\n' rfl rfl
      | cons d ds =>
        rw [List.cons_append, List.head?_cons] at h2
        obtain rfl := Option.some.inj h2
        rcases hp.1 with hb | hb <;> simp at hb
    have hrest := ih hp.2 (fun c' hc' => hl c' (by cases rest with
      | nil => cases hc'
      | cons a as => rwa [List.getLast?_cons_cons]))
    rw [List.cons_append, splitNN_cons, if_neg hcond, hrest]

/-- `intercalate` over a singleton. -/
theorem intercalate_single (sep a : Str) : List.intercalate sep [a] = a := by
  simp [List.intercalate]

/-- `intercalate` over at least two chunks. -/
theorem intercalate_cons_two (sep a b : Str) (t : List Str) :
    List.intercalate sep (a :: b :: t) = a ++ sep ++ List.intercalate sep (b :: t) := by
  simp [List.intercalate, List.intersperse]

/-- The head of an `intercalate` whose first chunk is non-empty. -/
theorem intercalate_head? (sep l₁ : Str) (ls : List Str) (h : l₁ ≠ []) :
    (List.intercalate sep (l₁ :: ls)).head? = l₁.head? := by
  cases ls with
  | nil => rw [intercalate_single]
  | cons b t =>
    rw [intercalate_cons_two, List.append_assoc]
    exact List.head?_append_of_ne_nil l₁ h

/-- An `intercalate` with a non-empty first chunk is non-empty. -/
theorem intercalate_ne_nil (sep l₁ : Str) (ls : List Str) (h : l₁ ≠ []) :
    List.intercalate sep (l₁ :: ls) ≠ [] := by
  intro h0
  have h1 := intercalate_head? sep l₁ ls h
  rw [h0] at h1
  cases l₁ with
  | nil => exact h rfl
  | cons c cs => cases h1

/-- The last character of an `intercalate` of non-empty chunks is the last
character of some chunk. -/
theorem intercalate_getLast? (sep : Str) :
    ∀ (ls : List Str), ls ≠ [] → (∀ l ∈ ls, l ≠ []) →
      ∃ lk ∈ ls, (List.intercalate sep ls).getLast? = lk.getLast? := by
  intro ls
  induction ls with
  | nil => intro h; exact absurd rfl h
  | cons a t ih =>
    intro _ hall
    cases t with
    | nil => exact ⟨a, List.mem_cons_self a [], by rw [intercalate_single]⟩
    | cons b t' =>
      obtain ⟨lk, hlk, hlast⟩ := ih (by simp)
        (fun l hl => hall l (List.mem_cons_of_mem a hl))
      refine ⟨lk, List.mem_cons_of_mem a hlk, ?_⟩
      rw [intercalate_cons_two, List.getLast?_append_of_ne_nil (a ++ sep)
        (intercalate_ne_nil sep b t' (hall b (by simp)))]
      exact hlast

/-- An `intercalate` with newline separators of non-empty newline-free chunks
has no consecutive newlines. -/
theorem hasNN_intercalate :
    ∀ ls : List Str, (∀ l ∈ ls, l ≠ [] ∧ '\n' ∉ l) →
      hasNN (List.intercalate ['\n'] ls) = false := by
  intro ls
  induction ls with
  | nil => intro _; rfl
  | cons a t ih =>
    intro hall
    cases t with
    | nil =>
      rw [intercalate_single]
      exact hasNN_of_not_mem a (hall a (by simp)).2
    | cons b t' =>
      rw [intercalate_cons_two, List.append_assoc]
      refine hasNN_append_of_not_mem a _ (hall a (by simp)).2 ?_ ?_
      · show hasNN ('\n' :: List.intercalate ['\n'] (b :: t')) = false
        simp only [hasNN, Bool.or_eq_false_iff, Bool.and_eq_false_iff]
        constructor
        · right
          rw [intercalate_head? ['\n'] b t' (hall b (by simp)).1]
          cases hb : b.head? with
          | none =>
            simp
          | some d =>
            have hd : d ∈ b := List.mem_of_mem_head? (by rw [hb]; rfl)
            have : d ≠ '\n' := fun h => (hall b (by simp)).2 (h ▸ hd)
            simp [this]
        · exact ih (fun l hl => hall l (List.mem_cons_of_mem a hl))
      · intro c hc d _ hcd
        have : c ∈ a := List.mem_of_mem_getLast? hc
        exact (hall a (by simp)).2 (hcd.1 ▸ this)

/-- `splitNN` is a left inverse of double-newline `intercalate` on chunks
with no consecutive newlines that do not end in a newline. -/
theorem splitNN_intercalate :
    ∀ Ps : List Str, Ps ≠ [] →
      (∀ p ∈ Ps, hasNN p = false ∧ ∀ c, p.getLast? = some c → c ≠ '\n') →
      splitNN (List.intercalate (str "\n\n") Ps) = Ps := by
  intro Ps
  induction Ps with
  | nil => intro h; exact absurd rfl h
  | cons p t ih =>
    intro _ hall
    cases t with
    | nil =>
      rw [intercalate_single]
      exact splitNN_no_sep p (hall p (by simp)).1
    | cons q t' =>
      have hsep : str "\n\n" = ['\n', '\n'] := rfl
      have hih := ih (by simp) (fun l hl => hall l (List.mem_cons_of_mem p hl))
      rw [intercalate_cons_two, hsep, List.append_assoc]
      rw [hsep] at hih
      show splitNN (p ++ '\n' :: '\n' :: List.intercalate ['\n', '\n'] (q :: t')) =
        p :: q :: t'
      rw [splitNN_append _ _ (hall p (by simp)).1 (hall p (by simp)).2, hih]

/-- `filterMap` fixes a list each of whose elements maps to itself. -/
theorem filterMap_eq_self_of_all {α : Type} {f : α → Option α} :
    ∀ l : List α, (∀ a ∈ l, f a = some a) → l.filterMap f = l := by
  intro l
  induction l with
  | nil => intro _; rfl
  | cons a t ih =>
    intro h
    rw [List.filterMap_cons, h a (by simp), ih (fun b hb => h b (List.mem_cons_of_mem a hb))]

/-- A line kept by the per-line filter is the strip of its source, is
non-empty, and is itself kept unchanged by the filter. -/
theorem cleanLine_fixed {l0 l : Str} (h : cleanLine l0 = some l) :
    l = pyStrip l0 ∧ pyStrip l = l ∧ l ≠ [] ∧ cleanLine l = some l := by
  simp only [cleanLine] at h
  split at h
  · cases h
  split at h
  · cases h
  split at h
  · cases h
  obtain rfl := Option.some.inj h
  rename_i h1 h2 h3
  refine ⟨rfl, pyStrip_idem l0, h1, ?_⟩
  simp only [cleanLine, pyStrip_idem l0]
  rw [if_neg h1, if_neg h2, if_neg h3]

/-- A paragraph kept by the per-paragraph body is kept unchanged when fed
back, is non-empty, has no consecutive newlines, and does not end in a
newline. -/
theorem cleanParagraph_fixed {p0 p : Str} (h : cleanParagraph p0 = some p) :
    cleanParagraph p = some p ∧ p ≠ [] ∧ hasNN p = false ∧
      (∀ c, p.getLast? = some c → c ≠ '\n') := by
  simp only [cleanParagraph] at h
  split at h
  · cases h
  split at h
  · cases h
  split at h
  case isFalse => cases h
  obtain rfl := Option.some.inj h
  rename_i h1 h2 h3
  have hls : ∀ l ∈ ((pyStrip p0).splitOn '\n').filterMap cleanLine,
      cleanLine l = some l ∧ l ≠ [] ∧ pyStrip l = l ∧ '\n' ∉ l := by
    intro l hl
    obtain ⟨l0, hl0, hcl⟩ := List.mem_filterMap.mp hl
    obtain ⟨hsrc, hstrip, hne, hfix⟩ := cleanLine_fixed hcl
    refine ⟨hfix, hne, hstrip, fun hmem => ?_⟩
    have hin0 : '\n' ∈ l0 := mem_of_mem_pyStrip (hsrc ▸ hmem)
    have := forall_mem_splitOnP_false (p := fun c => c == '\n') (pyStrip p0) l0 hl0 '\n' hin0
    simp at this
  set ls := ((pyStrip p0).splitOn '\n').filterMap cleanLine with hlsdef
  have hnn : hasNN (List.intercalate ['\n'] ls) = false :=
    hasNN_intercalate ls (fun l hl => ⟨(hls l hl).2.1, (hls l hl).2.2.2⟩)
  have hlast : ∀ c, (List.intercalate ['\n'] ls).getLast? = some c → c ≠ '\n' := by
    intro c hc
    obtain ⟨lk, hlk, hlk2⟩ := intercalate_getLast? ['\n'] ls h2
      (fun l hl => (hls l hl).2.1)
    rw [hlk2] at hc
    have hsp := pyStrip_getLast_not_space ((hls lk hlk).2.2.1.symm ▸ hc)
    intro hceq
    rw [hceq] at hsp
    simp [pyIsSpace] at hsp
  have hnonempty : List.intercalate ['\n'] ls ≠ [] := by
    rcases hcase : ls with _ | ⟨l₁, rest⟩
    · exact absurd hcase h2
    · exact intercalate_ne_nil ['\n'] l₁ rest ((hls l₁ (hcase ▸ List.mem_cons_self l₁ rest)).2.1)
  have hhead : ∀ c, (List.intercalate ['\n'] ls).head? = some c → pyIsSpace c = false := by
    intro c hc
    rcases hcase : ls with _ | ⟨l₁, rest⟩
    · exact absurd hcase h2
    · rw [hcase, intercalate_head? ['\n'] l₁ rest
        ((hls l₁ (hcase ▸ List.mem_cons_self l₁ rest)).2.1)] at hc
      exact pyStrip_head_not_space
        ((hls l₁ (hcase ▸ List.mem_cons_self l₁ rest)).2.2.1.symm ▸ hc)
  have hstrip_p : pyStrip (List.intercalate ['\n'] ls) = List.intercalate ['\n'] ls := by
    refine pyStrip_eq_self hhead (fun c hc => ?_)
    obtain ⟨lk, hlk, hlk2⟩ := intercalate_getLast? ['\n'] ls h2
      (fun l hl => (hls l hl).2.1)
    rw [hlk2] at hc
    exact pyStrip_getLast_not_space ((hls lk hlk).2.2.1.symm ▸ hc)
  refine ⟨?_, hnonempty, hnn, hlast⟩
  simp only [cleanParagraph, hstrip_p]
  rw [if_neg hnonempty]
  have hsplit : (List.intercalate ['\n'] ls).splitOn '\n' = ls :=
    List.splitOn_intercalate ls '\n' (fun l hl => (hls l hl).2.2.2) h2
  rw [hsplit, filterMap_eq_self_of_all ls (fun l hl => (hls l hl).1)]
  rw [if_neg h2, if_pos h3]

/-- C7: `TextCleaner.clean_text` is idempotent: cleaning an already cleaned
text returns it unchanged. -/
theorem C7_clean_text_idempotent (x : Str) :
    clean_text (clean_text x) = clean_text x := by
  by_cases hx : x = []
  · rw [hx]
    rfl
  · have hPs : ∀ p ∈ (splitNN x).filterMap cleanParagraph,
        cleanParagraph p = some p ∧ p ≠ [] ∧ hasNN p = false ∧
          (∀ c, p.getLast? = some c → c ≠ '\n') := by
      intro p hp
      obtain ⟨p0, _, hcp⟩ := List.mem_filterMap.mp hp
      exact cleanParagraph_fixed hcp
    rcases hcase : (splitNN x).filterMap cleanParagraph with _ | ⟨p₁, rest⟩
    · simp [clean_text, hx, hcase, List.intercalate]
    · have hne1 : p₁ ≠ [] :=
        (hPs p₁ (hcase ▸ List.mem_cons_self p₁ rest)).2.1
      have ho : List.intercalate (str "\n\n") ((splitNN x).filterMap cleanParagraph) ≠ [] := by
        rw [hcase]
        exact intercalate_ne_nil (str "\n\n") p₁ rest hne1
      simp only [clean_text, if_neg hx, if_neg ho]
      rw [splitNN_intercalate ((splitNN x).filterMap cleanParagraph)
        (by rw [hcase]; simp)
        (fun p hp => ⟨(hPs p hp).2.2.1, fun c hc hceq => (hPs p hp).2.2.2 c hc hceq⟩)]
      rw [filterMap_eq_self_of_all _ (fun p hp => (hPs p hp).1)]
